import Mathlib

/-!
# CSV importer verification

A shallow embedding of the CSV bulk-import logic of
`src/components/CSVUploader.tsx` (the `generateId`, `isRowEmpty`,
`convertToRecord` and `processCSV` functions), together with theorems
about it.

JavaScript string primitives used by the source (`String.prototype.split`
with a one-character separator, `trim`, `toLowerCase`, `toUpperCase`,
`padStart`, `parseInt`, `JSON.parse`) are modelled explicitly below with
their JavaScript semantics, restricted to the ASCII behaviour the importer
relies on.

The record store accessed through `getAllRecords()` lives outside the
imported sources; per the spec it is an opaque read accessor returning all
currently known records in insertion order, used solely to compute the
next sequential id.  We model its snapshot as an explicit `List String` of
the known record ids, passed to every function that reads the store.  The
date of import (`new Date().toISOString().split('T')[0]`) is likewise
passed in as an opaque `today : String`.
-/

namespace CSVImport

/-- JavaScript whitespace characters relevant to `String.prototype.trim`
(ASCII subset: space, tab, line feed, carriage return, vertical tab,
form feed). -/
def isWS (c : Char) : Bool :=
  c = ' ' || c = '\t' || c = '\n' || c = '\r' || c = Char.ofNat 11 || c = Char.ofNat 12

/-- `s.trim()` on the underlying character list. -/
def trimList (l : List Char) : List Char :=
  ((l.dropWhile isWS).reverse.dropWhile isWS).reverse

/-- JavaScript `s.trim()`. -/
def jsTrim (s : String) : String :=
  (trimList s.data).asString

/-- Splitting helper: walk the characters, cutting at every occurrence of
the separator, keeping empty pieces (JavaScript `split` semantics for a
one-character separator string). -/
def splitAux (sep : Char) : List Char → List Char → List String
  | [], acc => [acc.reverse.asString]
  | c :: cs, acc =>
      if c = sep then acc.reverse.asString :: splitAux sep cs []
      else splitAux sep cs (c :: acc)

/-- JavaScript `s.split(sep)` for a one-character separator. -/
def jsSplit (sep : Char) (s : String) : List String :=
  splitAux sep s.data []

/-- JavaScript `s.toLowerCase()` (ASCII). -/
def jsToLower (s : String) : String :=
  (s.data.map Char.toLower).asString

/-- JavaScript `s.toUpperCase()` (ASCII). -/
def jsToUpper (s : String) : String :=
  (s.data.map Char.toUpper).asString

/-- JavaScript `s.padStart(n, c)`. -/
def padStart (s : String) (n : Nat) (c : Char) : String :=
  (List.replicate (n - s.length) c).asString ++ s

/-- Decimal value of a digit run, most significant first. -/
def digitsVal (cs : List Char) : Nat :=
  cs.foldl (fun a c => a * 10 + (c.toNat - 48)) 0

/-- Hexadecimal value of a character, `none` when it is not a hex digit. -/
def hexVal (c : Char) : Option Nat :=
  if c.isDigit then some (c.toNat - 48)
  else if 'a' ≤ c && c ≤ 'f' then some (c.toNat - 87)
  else if 'A' ≤ c && c ≤ 'F' then some (c.toNat - 55)
  else none

/-- Whether a character is a hexadecimal digit. -/
def isHexDigit (c : Char) : Bool :=
  (hexVal c).isSome

/-- Apply an optional minus sign to a parsed magnitude. -/
def applySign (neg : Bool) (v : Nat) : Int :=
  if neg then -(v : Int) else (v : Int)

/-- The longest leading decimal digit run, `none` (`NaN`) when empty. -/
def parseDigitsPart (neg : Bool) (t : List Char) : Option Int :=
  let ds := t.takeWhile Char.isDigit
  if ds.isEmpty then none else some (applySign neg (digitsVal ds))

/-- `parseInt` after whitespace and sign: the implicit `0x`/`0X` hex
prefix, else the decimal digit run. -/
def parseIntCore (neg : Bool) (t : List Char) : Option Int :=
  match t with
  | c :: x :: rest =>
      if c = '0' && (x = 'x' || x = 'X') then
        let hs := rest.takeWhile isHexDigit
        if hs.isEmpty then none
        else some (applySign neg (hs.foldl (fun a h => a * 16 + (hexVal h).getD 0) 0))
      else parseDigitsPart neg t
  | _ => parseDigitsPart neg t

/-- JavaScript `parseInt(s)` with no radix argument: skip leading
whitespace, read an optional sign, then the number; `none` models `NaN`. -/
def parseIntJS (s : String) : Option Int :=
  match s.data.dropWhile isWS with
  | [] => none
  | c :: cs =>
      if c = '-' then parseIntCore true cs
      else if c = '+' then parseIntCore false cs
      else parseIntCore false (c :: cs)

/-- Decimal digit characters of a positive number, most significant
first; `fuel` bounds the recursion depth (any `fuel ≥ n` is exact). -/
def natDigitsAux : Nat → Nat → List Char
  | 0, _ => []
  | _ + 1, 0 => []
  | fuel + 1, n + 1 => natDigitsAux fuel ((n + 1) / 10) ++ [Char.ofNat (48 + (n + 1) % 10)]

/-- JavaScript `String(n)` for a natural number. -/
def natToStrJS (n : Nat) : String :=
  if n = 0 then "0" else (natDigitsAux (n + 1) n).asString

/-- JavaScript `String(i)` for an integral number. -/
def intToStrJS (i : Int) : String :=
  match i with
  | .ofNat m => natToStrJS m
  | .negSucc m => "-" ++ natToStrJS (m + 1)

/-- A JSON value, as produced by `JSON.parse`.  Numbers keep their source
lexeme (no claim below inspects a numeric value). -/
inductive Json where
  | null : Json
  | bool : Bool → Json
  | num : String → Json
  | str : String → Json
  | arr : List Json → Json
  | obj : List (String × Json) → Json

/-- Drop JSON insignificant whitespace. -/
def skipWS (l : List Char) : List Char :=
  l.dropWhile (fun c => c = ' ' || c = '\t' || c = '\n' || c = '\r')

/-- Parse the body of a JSON string literal after the opening quote;
returns the decoded characters and the remaining input. -/
def parseJStr : Nat → List Char → Option (List Char × List Char)
  | 0, _ => none
  | _ + 1, [] => none
  | fuel + 1, c :: cs =>
      if c = '"' then some ([], cs)
      else if c = '\\' then
        match cs with
        | [] => none
        | e :: cs' =>
            let dec : Option (Char × List Char) :=
              if e = '"' then some ('"', cs')
              else if e = '\\' then some ('\\', cs')
              else if e = '/' then some ('/', cs')
              else if e = 'b' then some (Char.ofNat 8, cs')
              else if e = 'f' then some (Char.ofNat 12, cs')
              else if e = 'n' then some ('\n', cs')
              else if e = 'r' then some ('\r', cs')
              else if e = 't' then some ('\t', cs')
              else if e = 'u' then
                match cs' with
                | h1 :: h2 :: h3 :: h4 :: cs'' =>
                    let hv : Char → Option Nat := fun h =>
                      if h.isDigit then some (h.toNat - 48)
                      else if 'a' ≤ h && h ≤ 'f' then some (h.toNat - 87)
                      else if 'A' ≤ h && h ≤ 'F' then some (h.toNat - 55)
                      else none
                    match hv h1, hv h2, hv h3, hv h4 with
                    | some a, some b, some c1, some d =>
                        some (Char.ofNat (((a * 16 + b) * 16 + c1) * 16 + d), cs'')
                    | _, _, _, _ => none
                | _ => none
              else none
            match dec with
            | some (ch, rest) =>
                match parseJStr fuel rest with
                | some (tl, rest') => some (ch :: tl, rest')
                | none => none
            | none => none
      else
        match parseJStr fuel cs with
        | some (tl, rest) => some (c :: tl, rest)
        | none => none

/-- Parse a JSON number lexeme (`-?(0|[1-9][0-9]*)(\.[0-9]+)?([eE][+-]?[0-9]+)?`). -/
def parseJNum (l : List Char) : Option (List Char × List Char) := Id.run do
  let (sign, t) := match l with
    | '-' :: rest => (['-'], rest)
    | _ => (([] : List Char), l)
  let intPart := t.takeWhile Char.isDigit
  let t1 := t.dropWhile Char.isDigit
  if intPart.isEmpty then return none
  if intPart.length > 1 && intPart.headD '0' = '0' then return none
  let (fracPart, t2) := match t1 with
    | '.' :: rest =>
        let ds := rest.takeWhile Char.isDigit
        if ds.isEmpty then (none, t1) else (some ('.' :: ds), rest.dropWhile Char.isDigit)
    | _ => (none, t1)
  match t2, fracPart with
  | '.' :: _, none => return none
  | _, _ => pure ()
  let (expPart, t3) := match t2 with
    | e :: rest =>
        if e = 'e' || e = 'E' then
          let (sgn, rest') := match rest with
            | s :: r => if s = '+' || s = '-' then ([s], r) else (([] : List Char), rest)
            | [] => ([], rest)
          let ds := rest'.takeWhile Char.isDigit
          if ds.isEmpty then (none, t2)
          else (some (e :: (sgn ++ ds)), rest'.dropWhile Char.isDigit)
        else (none, t2)
    | [] => (none, t2)
  match t2, expPart with
  | e :: _, none =>
      if e = 'e' || e = 'E' then return none
      else return some (sign ++ intPart ++ (fracPart.getD []) ++ [], t2)
  | _, _ =>
      return some (sign ++ intPart ++ (fracPart.getD []) ++ (expPart.getD []), t3)

mutual

/-- Parse one JSON value. -/
def parseJVal : Nat → List Char → Option (Json × List Char)
  | 0, _ => none
  | fuel + 1, l =>
      match skipWS l with
      | [] => none
      | c :: cs =>
          if c = 'n' then
            match cs with
            | 'u' :: 'l' :: 'l' :: rest => some (.null, rest)
            | _ => none
          else if c = 't' then
            match cs with
            | 'r' :: 'u' :: 'e' :: rest => some (.bool true, rest)
            | _ => none
          else if c = 'f' then
            match cs with
            | 'a' :: 'l' :: 's' :: 'e' :: rest => some (.bool false, rest)
            | _ => none
          else if c = '"' then
            match parseJStr fuel cs with
            | some (body, rest) => some (.str body.asString, rest)
            | none => none
          else if c = '[' then
            match skipWS cs with
            | ']' :: rest => some (.arr [], rest)
            | _ =>
                match parseJArr fuel cs with
                | some (xs, rest) => some (.arr xs, rest)
                | none => none
          else if c = Char.ofNat 123 then
            match skipWS cs with
            | c' :: rest =>
                if c' = Char.ofNat 125 then some (.obj [], rest)
                else
                  match parseJObj fuel cs with
                  | some (kvs, rest') => some (.obj kvs, rest')
                  | none => none
            | [] => none
          else
            match parseJNum (c :: cs) with
            | some (lex, rest) => some (.num lex.asString, rest)
            | none => none

/-- Parse the elements of a non-empty JSON array, after `[`. -/
def parseJArr : Nat → List Char → Option (List Json × List Char)
  | 0, _ => none
  | fuel + 1, l =>
      match parseJVal fuel l with
      | some (v, rest) =>
          match skipWS rest with
          | ',' :: rest' =>
              match parseJArr fuel rest' with
              | some (vs, rest'') => some (v :: vs, rest'')
              | none => none
          | ']' :: rest' => some ([v], rest')
          | _ => none
      | none => none

/-- Parse the members of a non-empty JSON object, after the open brace. -/
def parseJObj : Nat → List Char → Option (List (String × Json) × List Char)
  | 0, _ => none
  | fuel + 1, l =>
      match skipWS l with
      | '"' :: cs =>
          match parseJStr fuel cs with
          | some (key, rest) =>
              match skipWS rest with
              | ':' :: rest' =>
                  match parseJVal fuel rest' with
                  | some (v, rest'') =>
                      match skipWS rest'' with
                      | ',' :: rest3 =>
                          match parseJObj fuel rest3 with
                          | some (kvs, rest4) => some ((key.asString, v) :: kvs, rest4)
                          | none => none
                      | c :: rest3 =>
                          if c = Char.ofNat 125 then some ([(key.asString, v)], rest3)
                          else none
                      | [] => none
                  | none => none
              | _ => none
          | none => none
      | _ => none

end

/-- JavaScript `JSON.parse(s)`: one JSON value followed only by
whitespace; `none` models a thrown `SyntaxError`. -/
def JSONparse (s : String) : Option Json :=
  match parseJVal (s.length + 1) s.data with
  | some (v, rest) => if (skipWS rest).isEmpty then some v else none
  | none => none

/-- A JavaScript string-keyed object (`{ [key: string]: string }`):
an association list whose keys are unique, ordered by first insertion,
holding the most recent assignment for each key. -/
def jsObjSet (d : List (String × String)) (k v : String) : List (String × String) :=
  if d.any (fun kv => kv.1 = k) then
    d.map (fun kv => if kv.1 = k then (k, v) else kv)
  else d ++ [(k, v)]

/-- Property read `d[k]` / `d.k`: `none` models `undefined`. -/
def jsGet (d : List (String × String)) (k : String) : Option String :=
  (d.find? (fun kv => kv.1 = k)).map (fun kv => kv.2)

/-- `headers.forEach((header, index) => { data[header] = values[index] || ''; })`
from `processCSV`. -/
def buildData (headers values : List String) : List (String × String) :=
  headers.enum.foldl (fun d hi => jsObjSet d hi.2 (values.getD hi.1 "")) []

/-- The social-media sub-record of a company record. -/
structure SocialMedia where
  twitter : String
  linkedin : String

/-- The `Record` type constructed by `convertToRecord` (fields as in
`src/types`' company record, populated by the importer). -/
structure Record where
  id : String
  status : String
  level : String
  lastAccessed : String
  subject : String
  details : String
  requiredClearance : String
  name : String
  address : String
  zipCode : String
  city : String
  country : String
  logo : String
  images : Json
  category : List String
  tags : List String
  socialMedia : SocialMedia
  description : String
  sourceFound : String
  ceo : String
  language : List String
  taxId : String
  verificationStatus : List (String × String)

/-- Failure modes of an import run: the thrown "Invalid CSV format"
error for a missing `company_name` header, and a `JSON.parse` failure
escaping from `convertToRecord`. -/
inductive ImportError where
  | formatError : ImportError
  | parseError : ImportError
deriving Repr, DecidableEq

/-- Outcome of a completed run: the accumulated `newRecords` list and the
final values of the `processedRows` / `skippedRows` counters. -/
structure ImportResult where
  records : List Record
  processed : Nat
  skipped : Nat

/-- `generateId` from `CSVUploader.tsx`:
`records[records.length - 1]?.id || 'CORP-0000'`, split on `-`, parse the
suffix, add one, zero-pad to four digits.  The store snapshot is the list
`known` of known record ids in insertion order; a missing index-1 piece
feeds the string `"undefined"` to `parseInt` (JavaScript coercion), and a
`NaN` result propagates as the characters `NaN`. -/
def generateId (known : List String) : String :=
  let lastId := match known.getLast? with
    | some s => if s = "" then "CORP-0000" else s
    | none => "CORP-0000"
  match parseIntJS ((jsSplit '-' lastId).getD 1 "undefined") with
  | some n => "CORP-" ++ padStart (intToStrJS (n + 1)) 4 '0'
  | none => "CORP-" ++ padStart "NaN" 4 '0'

/-- `isRowEmpty`: every value of the row object is blank after trimming. -/
def isRowEmpty (data : List (String × String)) : Bool :=
  data.all (fun kv => jsTrim kv.2 = "")

/-- The guard `!data.company_name?.trim()`: the `company_name` property is
absent, or blank after trimming. -/
def companyBlank (data : List (String × String)) : Bool :=
  match jsGet data "company_name" with
  | none => true
  | some s => jsTrim s = ""

/-- The idiom `data.k?.trim() || dflt`: `dflt` when the property is absent
or trims to blank, the trimmed value otherwise. -/
def optTrimOr (o : Option String) (dflt : String) : String :=
  match o with
  | none => dflt
  | some s => if jsTrim s = "" then dflt else jsTrim s

/-- The idiom `data.k?.trim() ? data.k.split(',').map(x => x.trim().toUpperCase()) : dflt`
for the comma-separated list columns. -/
def listColumn (o : Option String) (dflt : List String) : List String :=
  match o with
  | none => dflt
  | some s =>
      if jsTrim s = "" then dflt
      else (jsSplit ',' s).map (fun x => jsToUpper (jsTrim x))

/-- `data.images ? JSON.parse(data.images.trim() || '[]') : []`:
absent or empty-string property gives a literal `[]`; otherwise
`JSON.parse` runs on the trimmed value (or on `'[]'` when that trims to
empty) and a parse failure escapes as a thrown error. -/
def imagesValue (o : Option String) : Except ImportError Json :=
  match o with
  | none => .ok (.arr [])
  | some s =>
      if s = "" then .ok (.arr [])
      else
        match JSONparse (if jsTrim s = "" then "[]" else jsTrim s) with
        | some j => .ok j
        | none => .error .parseError

/-- `convertToRecord` from `CSVUploader.tsx`.  `today` stands for
`new Date().toISOString().split('T')[0]`, `known` for the record-store
snapshot read by `generateId`.  `.ok none` is the `null` result (row
skipped); `.error` is a thrown `JSON.parse` failure. -/
def convertToRecord (today : String) (known : List String)
    (data : List (String × String)) : Except ImportError (Option Record) :=
  if isRowEmpty data then .ok none
  else if companyBlank data then .ok none
  else
    match imagesValue (jsGet data "images") with
    | .error e => .error e
    | .ok imgs => .ok (some {
        id := generateId known
        status := "ACTIVE"
        level := "PUBLIC"
        lastAccessed := today
        subject := jsTrim ((jsGet data "company_name").getD "")
        details := optTrimOr (jsGet data "description")
          (jsTrim ((jsGet data "company_name").getD ""))
        requiredClearance := "PUBLIC"
        name := jsTrim ((jsGet data "company_name").getD "")
        address := optTrimOr (jsGet data "address") ""
        zipCode := optTrimOr (jsGet data "zipCode") ""
        city := optTrimOr (jsGet data "city") ""
        country := optTrimOr (jsGet data "country") ""
        logo := optTrimOr (jsGet data "logo")
          "https://images.unsplash.com/photo-1516245834210-c4c142787335?auto=format&fit=crop&w=300"
        images := imgs
        category := listColumn (jsGet data "category") []
        tags := listColumn (jsGet data "tags") []
        socialMedia := {
          twitter := optTrimOr (jsGet data "twitter") ""
          linkedin := optTrimOr (jsGet data "linkedin") "" }
        description := optTrimOr (jsGet data "description") ""
        sourceFound := "Company Website"
        ceo := optTrimOr (jsGet data "ceo") ""
        language := listColumn (jsGet data "language") ["ENGLISH"]
        taxId := optTrimOr (jsGet data "taxId") ""
        verificationStatus := [] })

/-- The per-row field mapping of `processCSV`:
`const values = lines[i].split(',').map(v => v.trim())` zipped against the
headers by index. -/
def lineData (headers : List String) (line : String) : List (String × String) :=
  buildData headers ((jsSplit ',' line).map jsTrim)

/-- One iteration of the `for` loop of `processCSV` on the line `line`:
skip blank lines, otherwise split into trimmed values, zip against the
headers and convert. -/
def processLine (today : String) (known : List String) (headers : List String)
    (st : ImportResult) (line : String) : Except ImportError ImportResult :=
  if jsTrim line = "" then
    .ok ⟨st.records, st.processed, st.skipped + 1⟩
  else
    match convertToRecord today known (lineData headers line) with
    | .error e => .error e
    | .ok none => .ok ⟨st.records, st.processed, st.skipped + 1⟩
    | .ok (some r) => .ok ⟨st.records ++ [r], st.processed + 1, st.skipped⟩

/-- The `for` loop of `processCSV` over the lines after the header. -/
def runLines (today : String) (known : List String) (headers : List String) :
    List String → ImportResult → Except ImportError ImportResult
  | [], st => .ok st
  | l :: ls, st =>
      match processLine today known headers st l with
      | .error e => .error e
      | .ok st' => runLines today known headers ls st'

/-- The header tokens of the file text:
`lines[0].toLowerCase().split(',').map(h => h.trim())`. -/
def csvHeaders (text : String) : List String :=
  (jsSplit ',' (jsToLower ((jsSplit '\n' text).headD ""))).map jsTrim

/-- `processCSV` from `CSVUploader.tsx` on the decoded file text: split
into lines on `\n`, lower-case and split the first line into trimmed
header tokens, require `company_name` among them, then run the row loop.
The `.error` cases are the states in which the `catch` branch reports a
failure to the user and no record list is surfaced. -/
def processCSV (today : String) (known : List String) (text : String) :
    Except ImportError ImportResult :=
  let lines := jsSplit '\n' text
  let headers := csvHeaders text
  if "company_name" ∈ headers then
    runLines today known headers lines.tail ⟨[], 0, 0⟩
  else .error .formatError

/-- A well-formed sequential record id, `CORP-` followed by the four-digit
zero-padded decimal suffix, as `generateId` produces them. -/
def fmtId (n : Nat) : String :=
  "CORP-" ++ padStart (natToStrJS n) 4 '0'

/-- A record with every field at its neutral value, used as the default of
`Option.getD` when naming the output of a conversion already known to
succeed. -/
def emptyRecord : Record where
  id := ""
  status := ""
  level := ""
  lastAccessed := ""
  subject := ""
  details := ""
  requiredClearance := ""
  name := ""
  address := ""
  zipCode := ""
  city := ""
  country := ""
  logo := ""
  images := .arr []
  category := []
  tags := []
  socialMedia := ⟨"", ""⟩
  description := ""
  sourceFound := ""
  ceo := ""
  language := []
  taxId := ""
  verificationStatus := []

/-! ## Helper lemmas: strings and splitting -/

theorem asString_nil : ([] : List Char).asString = "" := rfl

theorem string_ne_empty_of_data {s : String} (h : s.data ≠ []) : s ≠ "" := by
  intro he
  exact h (by rw [he])

theorem splitAux_no_sep (sep : Char) (l : List Char) (acc : List Char)
    (h : ∀ c ∈ l, c ≠ sep) :
    splitAux sep l acc = [(acc.reverse ++ l).asString] := by
  induction l generalizing acc with
  | nil => simp [splitAux]
  | cons c cs ih =>
      rw [splitAux, if_neg (h c (List.mem_cons_self c cs))]
      rw [ih (c :: acc) (fun x hx => h x (List.mem_cons_of_mem c hx))]
      simp

theorem splitAux_append_sep (sep : Char) (l : List Char) (acc : List Char) :
    splitAux sep (l ++ [sep]) acc = splitAux sep l acc ++ [""] := by
  induction l generalizing acc with
  | nil => simp [splitAux, asString_nil]
  | cons c cs ih =>
      by_cases h : c = sep <;> simp [splitAux, h, ih]

theorem splitAux_ne_nil (sep : Char) (l : List Char) (acc : List Char) :
    splitAux sep l acc ≠ [] := by
  induction l generalizing acc with
  | nil => simp [splitAux]
  | cons c cs ih =>
      by_cases h : c = sep <;> simp [splitAux, h, ih]

theorem jsSplit_ne_nil (sep : Char) (s : String) : jsSplit sep s ≠ [] :=
  splitAux_ne_nil sep s.data []

theorem jsSplit_append_newline (text : String) :
    jsSplit '\n' (text ++ "\n") = jsSplit '\n' text ++ [""] := by
  unfold jsSplit
  rw [String.data_append]
  exact splitAux_append_sep '\n' text.data []

theorem jsSplit_no_sep (sep : Char) (s : String) (h : ∀ c ∈ s.data, c ≠ sep) :
    jsSplit sep s = [s] := by
  unfold jsSplit
  rw [splitAux_no_sep sep s.data [] h]
  rfl

theorem trimList_nil_iff (l : List Char) : trimList l = [] ↔ ∀ c ∈ l, isWS c := by
  constructor
  · intro h c hc
    have h3 : (l.dropWhile isWS).reverse.dropWhile isWS = [] := by
      have := congrArg List.reverse h
      simpa [trimList] using this
    have hall : ∀ x ∈ l.dropWhile isWS, isWS x := by
      intro x hx
      exact List.dropWhile_eq_nil_iff.mp h3 x (by simpa using hx)
    rw [← List.takeWhile_append_dropWhile (p := isWS) (l := l)] at hc
    rcases List.mem_append.mp hc with h1 | h2
    · exact List.mem_takeWhile_imp h1
    · exact hall c h2
  · intro h
    have h1 : l.dropWhile isWS = [] := List.dropWhile_eq_nil_iff.mpr (fun c hc => h c hc)
    simp [trimList, h1]

theorem jsTrim_empty_iff (s : String) : jsTrim s = "" ↔ ∀ c ∈ s.data, isWS c := by
  rw [← trimList_nil_iff s.data]
  constructor
  · intro h
    have := congrArg String.data h
    simpa [jsTrim] using this
  · intro h
    simp [jsTrim, h, asString_nil]

/-! ## Helper lemmas: the row object -/

theorem jsGet_some_mem {d : List (String × String)} {k v : String}
    (h : jsGet d k = some v) : (k, v) ∈ d := by
  unfold jsGet at h
  cases hf : d.find? (fun kv => kv.1 = k) with
  | none => rw [hf] at h; simp at h
  | some kv =>
      rw [hf] at h
      simp at h
      have hkey : kv.1 = k := by
        have := List.find?_some hf
        simpa using this
      have hmem : kv ∈ d := List.mem_of_find?_eq_some hf
      have : kv = (k, v) := by
        cases kv with
        | mk a b => simp at hkey h; rw [hkey, h]
      rwa [this] at hmem

theorem jsObjSet_keys {d : List (String × String)} {k v : String} :
    ∀ kv ∈ jsObjSet d k v, kv.1 = k ∨ kv ∈ d := by
  intro kv hkv
  unfold jsObjSet at hkv
  by_cases ha : d.any (fun kv => kv.1 = k)
  · rw [if_pos ha] at hkv
    rcases List.mem_map.mp hkv with ⟨kv0, hkv0, heq⟩
    by_cases hk : kv0.1 = k
    · rw [if_pos hk] at heq
      left; rw [← heq]
    · rw [if_neg hk] at heq
      right; rwa [← heq]
  · rw [if_neg ha] at hkv
    rcases List.mem_append.mp hkv with h1 | h2
    · right; exact h1
    · left
      simp at h2
      rw [h2]

theorem jsObjSet_values {d : List (String × String)} {k v : String} :
    ∀ kv ∈ jsObjSet d k v, kv.2 = v ∨ kv ∈ d := by
  intro kv hkv
  unfold jsObjSet at hkv
  by_cases ha : d.any (fun kv => kv.1 = k)
  · rw [if_pos ha] at hkv
    rcases List.mem_map.mp hkv with ⟨kv0, hkv0, heq⟩
    by_cases hk : kv0.1 = k
    · rw [if_pos hk] at heq
      left; rw [← heq]
    · rw [if_neg hk] at heq
      right; rwa [← heq]
  · rw [if_neg ha] at hkv
    rcases List.mem_append.mp hkv with h1 | h2
    · right; exact h1
    · left
      simp at h2
      rw [h2]

theorem buildData_keys {headers values : List String} :
    ∀ kv ∈ buildData headers values, kv.1 ∈ headers := by
  unfold buildData
  have main : ∀ (hs : List (Nat × String)) (d : List (String × String)),
      (∀ kv ∈ d, kv.1 ∈ headers) → (∀ hi ∈ hs, hi.2 ∈ headers) →
      ∀ kv ∈ hs.foldl (fun d hi => jsObjSet d hi.2 (values.getD hi.1 "")) d, kv.1 ∈ headers := by
    intro hs
    induction hs with
    | nil => intro d hd _ kv hkv; exact hd kv hkv
    | cons hi hs ih =>
        intro d hd hhs kv hkv
        refine ih _ ?_ (fun x hx => hhs x (List.mem_cons_of_mem hi hx)) kv hkv
        intro kv' hkv'
        rcases jsObjSet_keys kv' hkv' with h1 | h2
        · rw [h1]; exact hhs hi (List.mem_cons_self hi hs)
        · exact hd kv' h2
  intro kv hkv
  refine main headers.enum [] (by simp) ?_ kv hkv
  intro hi hhi
  exact List.snd_mem_of_mem_enum hhi

theorem all_blank_getD : ∀ {values : List String}, (∀ v ∈ values, v = "") →
    ∀ i, values.getD i "" = ""
  | [], _, i => by cases i <;> rfl
  | v :: vs, h, 0 => by simpa using h v (List.mem_cons_self v vs)
  | v :: vs, h, i + 1 => all_blank_getD (fun x hx => h x (List.mem_cons_of_mem v hx)) i

theorem buildData_values {headers values : List String}
    (h : ∀ v ∈ values, v = "") :
    ∀ kv ∈ buildData headers values, kv.2 = "" := by
  unfold buildData
  have hget : ∀ i, values.getD i "" = "" := all_blank_getD h
  have main : ∀ (hs : List (Nat × String)) (d : List (String × String)),
      (∀ kv ∈ d, kv.2 = "") →
      ∀ kv ∈ hs.foldl (fun d hi => jsObjSet d hi.2 (values.getD hi.1 "")) d, kv.2 = "" := by
    intro hs
    induction hs with
    | nil => intro d hd kv hkv; exact hd kv hkv
    | cons hi hs ih =>
        intro d hd kv hkv
        refine ih _ ?_ kv hkv
        intro kv' hkv'
        rcases jsObjSet_values kv' hkv' with h1 | h2
        · rw [h1]; exact hget hi.1
        · exact hd kv' h2
  intro kv hkv
  exact main headers.enum [] (by simp) kv hkv

theorem companyBlank_of_blank_line {headers : List String} {line : String}
    (h : jsTrim line = "") : companyBlank (lineData headers line) = true := by
  have hws : ∀ c ∈ line.data, isWS c := (jsTrim_empty_iff line).mp h
  have hsplit : jsSplit ',' line = [line] := by
    refine jsSplit_no_sep ',' line ?_
    intro c hc heq
    have := hws c hc
    rw [heq] at this
    simp [isWS] at this
  have hvals : ∀ v ∈ (jsSplit ',' line).map jsTrim, v = "" := by
    intro v hv
    rcases List.mem_map.mp hv with ⟨x, hx, hxe⟩
    rw [hsplit] at hx
    simp at hx
    rw [← hxe, hx, h]
  unfold companyBlank
  cases hg : jsGet (lineData headers line) "company_name" with
  | none => rfl
  | some s =>
      have hmem := jsGet_some_mem hg
      have := buildData_values hvals _ hmem
      simp at this
      simp [this]
      rfl

theorem isRowEmpty_false_of_company {data : List (String × String)}
    (h : companyBlank data = false) : isRowEmpty data = false := by
  unfold companyBlank at h
  cases hg : jsGet data "company_name" with
  | none => rw [hg] at h; simp at h
  | some s =>
      rw [hg] at h
      simp at h
      have hmem := jsGet_some_mem hg
      unfold isRowEmpty
      rw [List.all_eq_false]
      exact ⟨("company_name", s), hmem, by simpa using h⟩

/-! ## Helper lemmas: row conversion -/

theorem imagesValue_error {o : Option String} {e : ImportError}
    (h : imagesValue o = .error e) : e = .parseError := by
  cases o with
  | none => simp [imagesValue] at h
  | some s =>
      simp only [imagesValue] at h
      by_cases h1 : s = ""
      · rw [if_pos h1] at h; simp at h
      · rw [if_neg h1] at h
        cases hj : JSONparse (if jsTrim s = "" then "[]" else jsTrim s) with
        | some j => rw [hj] at h; simp at h
        | none => rw [hj] at h; simp at h; exact h.symm

theorem convertToRecord_skip {today : String} {known : List String}
    {data : List (String × String)}
    (h : isRowEmpty data = true ∨ companyBlank data = true) :
    convertToRecord today known data = .ok none := by
  rcases h with h | h
  · simp [convertToRecord, h]
  · cases h1 : isRowEmpty data <;> simp [convertToRecord, h1, h]

theorem convertToRecord_ok_some {today : String} {known : List String}
    {data : List (String × String)} {rec : Record}
    (h : convertToRecord today known data = .ok (some rec)) :
    isRowEmpty data = false ∧ companyBlank data = false ∧
    rec.id = generateId known ∧
    rec.name = jsTrim ((jsGet data "company_name").getD "") ∧
    rec.subject = rec.name ∧
    rec.details = optTrimOr (jsGet data "description")
      (jsTrim ((jsGet data "company_name").getD "")) ∧
    rec.description = optTrimOr (jsGet data "description") "" ∧
    rec.category = listColumn (jsGet data "category") [] ∧
    rec.language = listColumn (jsGet data "language") ["ENGLISH"] ∧
    rec.zipCode = optTrimOr (jsGet data "zipCode") "" ∧
    rec.taxId = optTrimOr (jsGet data "taxId") "" := by
  unfold convertToRecord at h
  cases h1 : isRowEmpty data with
  | true => simp [h1] at h
  | false =>
      simp only [h1, Bool.false_eq_true, if_false] at h
      cases h2 : companyBlank data with
      | true => simp [h2] at h
      | false =>
          simp only [h2, Bool.false_eq_true, if_false] at h
          cases him : imagesValue (jsGet data "images") with
          | error e => rw [him] at h; simp at h
          | ok imgs =>
              rw [him] at h
              simp only [Except.ok.injEq, Option.some.injEq] at h
              subst h
              refine ⟨rfl, rfl, rfl, rfl, rfl, rfl, rfl, rfl, rfl, rfl, rfl⟩

theorem convertToRecord_error_cases {today : String} {known : List String}
    {data : List (String × String)} {e : ImportError}
    (h : convertToRecord today known data = .error e) : e = .parseError := by
  unfold convertToRecord at h
  cases h1 : isRowEmpty data with
  | true => simp [h1] at h
  | false =>
      simp only [h1, Bool.false_eq_true, if_false] at h
      cases h2 : companyBlank data with
      | true => simp [h2] at h
      | false =>
          simp only [h2, Bool.false_eq_true, if_false] at h
          cases him : imagesValue (jsGet data "images") with
          | error e' =>
              rw [him] at h
              simp at h
              rw [← h]
              exact imagesValue_error him
          | ok imgs => rw [him] at h; simp at h

theorem convertToRecord_error_of_images {today : String} {known : List String}
    {data : List (String × String)}
    (h1 : companyBlank data = false)
    (h2 : imagesValue (jsGet data "images") = .error .parseError) :
    convertToRecord today known data = .error .parseError := by
  have h0 := isRowEmpty_false_of_company h1
  unfold convertToRecord
  rw [h0, h1]
  simp [h2]

/-! ## Helper lemmas: the row loop -/

theorem processLine_error_eq {today : String} {known headers : List String}
    {st : ImportResult} {line : String} {e : ImportError}
    (h : processLine today known headers st line = .error e) : e = .parseError := by
  unfold processLine at h
  by_cases hl : jsTrim line = ""
  · rw [if_pos hl] at h; simp at h
  · rw [if_neg hl] at h
    cases hc : convertToRecord today known (lineData headers line) with
    | error e' =>
        rw [hc] at h
        simp at h
        rw [← h]
        exact convertToRecord_error_cases hc
    | ok o => rw [hc] at h; cases o <;> simp at h

theorem processLine_error_st {today : String} {known headers : List String}
    {st : ImportResult} {line : String} {e : ImportError}
    (h : processLine today known headers st line = .error e)
    (st' : ImportResult) : processLine today known headers st' line = .error e := by
  unfold processLine at h ⊢
  by_cases hl : jsTrim line = ""
  · rw [if_pos hl] at h; simp at h
  · rw [if_neg hl] at h ⊢
    cases hc : convertToRecord today known (lineData headers line) with
    | error e' => rw [hc] at h; simp at h; simp [h]
    | ok o => rw [hc] at h; cases o <;> simp at h

theorem processLine_ok_cases {today : String} {known headers : List String}
    {st st' : ImportResult} {line : String}
    (h : processLine today known headers st line = .ok st') :
    (st' = ⟨st.records, st.processed, st.skipped + 1⟩) ∨
    (∃ r, st' = ⟨st.records ++ [r], st.processed + 1, st.skipped⟩ ∧
      r.id = generateId known) := by
  unfold processLine at h
  by_cases hl : jsTrim line = ""
  · rw [if_pos hl] at h
    simp at h
    left; exact h.symm
  · rw [if_neg hl] at h
    cases hc : convertToRecord today known (lineData headers line) with
    | error e' => rw [hc] at h; simp at h
    | ok o =>
        rw [hc] at h
        cases o with
        | none => simp at h; left; exact h.symm
        | some r =>
            simp at h
            right
            exact ⟨r, h.symm, (convertToRecord_ok_some hc).2.2.1⟩

theorem runLines_counts {today : String} {known headers : List String} :
    ∀ {ls : List String} {st st' : ImportResult},
    runLines today known headers ls st = .ok st' →
    st'.processed + st'.skipped = st.processed + st.skipped + ls.length
  | [], st, st', h => by
      unfold runLines at h
      simp at h
      rw [← h]
      simp
  | l :: ls, st, st', h => by
      unfold runLines at h
      cases hp : processLine today known headers st l with
      | error e => rw [hp] at h; simp at h
      | ok st1 =>
          rw [hp] at h
          have ih := runLines_counts h
          rcases processLine_ok_cases hp with h1 | ⟨r, h1, _⟩ <;>
            · rw [h1] at ih
              simp at ih
              simp [ih]
              omega

theorem runLines_ids {today : String} {known headers : List String} :
    ∀ {ls : List String} {st st' : ImportResult},
    runLines today known headers ls st = .ok st' →
    ∀ r ∈ st'.records, r ∈ st.records ∨ r.id = generateId known
  | [], st, st', h => by
      unfold runLines at h
      simp at h
      rw [← h]
      exact fun r hr => Or.inl hr
  | l :: ls, st, st', h => by
      unfold runLines at h
      cases hp : processLine today known headers st l with
      | error e => rw [hp] at h; simp at h
      | ok st1 =>
          rw [hp] at h
          intro r hr
          rcases runLines_ids h r hr with h1 | h1
          · rcases processLine_ok_cases hp with h2 | ⟨r', h2, hid⟩
            · rw [h2] at h1; exact Or.inl h1
            · rw [h2] at h1
              simp at h1
              rcases h1 with h1 | h1
              · exact Or.inl h1
              · right; rw [h1]; exact hid
          · exact Or.inr h1

theorem runLines_cons {today : String} {known headers : List String}
    {l : String} {ls : List String} {st : ImportResult} :
    runLines today known headers (l :: ls) st =
      match processLine today known headers st l with
      | .error e => .error e
      | .ok st' => runLines today known headers ls st' := rfl

theorem runLines_append {today : String} {known headers : List String} :
    ∀ (as bs : List String) (st : ImportResult),
    runLines today known headers (as ++ bs) st =
      match runLines today known headers as st with
      | .error e => .error e
      | .ok st' => runLines today known headers bs st'
  | [], bs, st => by simp [runLines]
  | a :: as, bs, st => by
      rw [List.cons_append, runLines_cons, runLines_cons]
      cases hp : processLine today known headers st a with
      | error e => rfl
      | ok st1 => exact runLines_append as bs st1

theorem runLines_error_of_bad {today : String} {known headers : List String}
    {bad : String}
    (hbad : ∀ st2, processLine today known headers st2 bad = .error .parseError) :
    ∀ {ls : List String}, bad ∈ ls →
    ∀ st, runLines today known headers ls st = .error .parseError
  | l :: ls, hmem, st => by
      unfold runLines
      cases hp : processLine today known headers st l with
      | error e =>
          rw [processLine_error_eq hp]
      | ok st1 =>
          rcases List.mem_cons.mp hmem with h1 | h1
          · rw [← h1] at hp
            rw [hbad st] at hp
            exact absurd hp (by simp)
          · exact runLines_error_of_bad hbad h1 st1

/-! ## Helper lemmas: decimal digits and id suffixes -/

theorem digitsVal_append_digit (xs : List Char) (c : Char) :
    digitsVal (xs ++ [c]) = digitsVal xs * 10 + (c.toNat - 48) := by
  unfold digitsVal
  rw [List.foldl_append]
  rfl

theorem digitsVal_drop_zeros (k : Nat) (ds : List Char) :
    digitsVal (List.replicate k '0' ++ ds) = digitsVal ds := by
  induction k with
  | zero => rfl
  | succ n ih =>
      rw [List.replicate_succ, List.cons_append]
      unfold digitsVal at ih ⊢
      simpa using ih

theorem natDigitsAux_zero (fuel : Nat) : natDigitsAux fuel 0 = [] := by
  cases fuel <;> rfl

theorem natDigitsAux_spec : ∀ (fuel n : Nat), 0 < n → n ≤ fuel →
    natDigitsAux fuel n ≠ [] ∧
    (∀ c ∈ natDigitsAux fuel n, ∃ d, d < 10 ∧ c = Char.ofNat (48 + d)) ∧
    digitsVal (natDigitsAux fuel n) = n
  | 0, n, hpos, hle => absurd (Nat.lt_of_lt_of_le hpos hle) (by omega)
  | fuel + 1, 0, hpos, _ => absurd hpos (by omega)
  | fuel + 1, n + 1, _, hle => by
      have hmod : (n + 1) % 10 < 10 := Nat.mod_lt _ (by omega)
      by_cases hq : (n + 1) / 10 = 0
      · rw [natDigitsAux, hq, natDigitsAux_zero, List.nil_append]
        refine ⟨by simp, ?_, ?_⟩
        · intro c hc
          simp at hc
          exact ⟨(n + 1) % 10, hmod, hc⟩
        · have hv : digitsVal [Char.ofNat (48 + (n + 1) % 10)] =
              (Char.ofNat (48 + (n + 1) % 10)).toNat - 48 := by
            unfold digitsVal
            simp
          rw [hv]
          have htn : (Char.ofNat (48 + (n + 1) % 10)).toNat = 48 + (n + 1) % 10 := by
            set r := (n + 1) % 10 with hr
            interval_cases r <;> decide
          rw [htn]
          omega
      · have hqpos : 0 < (n + 1) / 10 := Nat.pos_of_ne_zero hq
        have hqle : (n + 1) / 10 ≤ fuel := by
          have := Nat.div_lt_self (by omega : 0 < n + 1) (by omega : 1 < 10)
          omega
        obtain ⟨ih1, ih2, ih3⟩ := natDigitsAux_spec fuel ((n + 1) / 10) hqpos hqle
        rw [natDigitsAux]
        refine ⟨by simp, ?_, ?_⟩
        · intro c hc
          rcases List.mem_append.mp hc with h1 | h2
          · exact ih2 c h1
          · simp at h2
            exact ⟨(n + 1) % 10, hmod, h2⟩
        · rw [digitsVal_append_digit, ih3]
          have htn : (Char.ofNat (48 + (n + 1) % 10)).toNat = 48 + (n + 1) % 10 := by
            set r := (n + 1) % 10 with hr
            interval_cases r <;> decide
          rw [htn]
          have := Nat.div_add_mod (n + 1) 10
          omega

theorem natToStrJS_spec (n : Nat) :
    (natToStrJS n).data ≠ [] ∧
    (∀ c ∈ (natToStrJS n).data, ∃ d, d < 10 ∧ c = Char.ofNat (48 + d)) ∧
    digitsVal (natToStrJS n).data = n := by
  by_cases h : n = 0
  · subst h
    refine ⟨by decide, ?_, by decide⟩
    intro c hc
    refine ⟨0, by omega, ?_⟩
    have : c = '0' := by
      simpa [natToStrJS] using hc
    rw [this]
  · have hpos : 0 < n := Nat.pos_of_ne_zero h
    obtain ⟨h1, h2, h3⟩ := natDigitsAux_spec (n + 1) n hpos (by omega)
    rw [natToStrJS, if_neg h]
    exact ⟨h1, h2, h3⟩

theorem digit_char_facts {d : Nat} (hd : d < 10) :
    isWS (Char.ofNat (48 + d)) = false ∧
    Char.ofNat (48 + d) ≠ '-' ∧ Char.ofNat (48 + d) ≠ '+' ∧
    Char.ofNat (48 + d) ≠ 'x' ∧ Char.ofNat (48 + d) ≠ 'X' ∧
    (Char.ofNat (48 + d)).isDigit = true := by
  interval_cases d <;> exact ⟨by decide, by decide, by decide, by decide, by decide, by decide⟩

theorem parseIntCore_digits (t : List Char) (h1 : t ≠ [])
    (hall : ∀ c ∈ t, c ≠ 'x' ∧ c ≠ 'X' ∧ c.isDigit = true) :
    parseIntCore false t = some (digitsVal t : Int) := by
  have htake : t.takeWhile Char.isDigit = t :=
    List.takeWhile_eq_self_iff.mpr (fun x hx => (hall x hx).2.2)
  have hpd : parseDigitsPart false t = some (digitsVal t : Int) := by
    unfold parseDigitsPart
    rw [htake]
    cases t with
    | nil => exact absurd rfl h1
    | cons c cs => simp [applySign]
  cases t with
  | nil => exact absurd rfl h1
  | cons c cs =>
      cases cs with
      | nil => exact hpd
      | cons x rest =>
          have hx := hall x (by simp)
          have hcond : (c = '0' && (x = 'x' || x = 'X')) = false := by
            simp [hx.1, hx.2.1]
          simp only [parseIntCore, hcond, Bool.false_eq_true, if_false]
          exact hpd

theorem parseIntJS_digits (s : String) (h1 : s.data ≠ [])
    (h2 : ∀ c ∈ s.data, ∃ d, d < 10 ∧ c = Char.ofNat (48 + d)) :
    parseIntJS s = some (digitsVal s.data : Int) := by
  have hfacts : ∀ c ∈ s.data, isWS c = false ∧ c ≠ '-' ∧ c ≠ '+' ∧
      c ≠ 'x' ∧ c ≠ 'X' ∧ c.isDigit = true := by
    intro c hc
    rcases h2 c hc with ⟨d, hd, hcd⟩
    rw [hcd]
    exact digit_char_facts hd
  cases hs : s.data with
  | nil => exact absurd hs h1
  | cons c cs =>
      have hc0 := hfacts c (by rw [hs]; exact List.mem_cons_self c cs)
      have hdrop : s.data.dropWhile isWS = c :: cs := by
        rw [hs]
        exact List.dropWhile_cons_of_neg (by simp [hc0.1])
      have hcore : parseIntCore false (c :: cs) = some (digitsVal (c :: cs) : Int) := by
        refine parseIntCore_digits (c :: cs) (by simp) ?_
        intro y hy
        exact ⟨(hfacts y (by rw [hs]; exact hy)).2.2.2.1,
          (hfacts y (by rw [hs]; exact hy)).2.2.2.2.1,
          (hfacts y (by rw [hs]; exact hy)).2.2.2.2.2⟩
      unfold parseIntJS
      simp only [hdrop]
      rw [if_neg hc0.2.1, if_neg hc0.2.2.1, hcore]

theorem parseIntJS_padded (n : Nat) :
    parseIntJS (padStart (natToStrJS n) 4 '0') = some (n : Int) := by
  obtain ⟨h1, h2, h3⟩ := natToStrJS_spec n
  have hdata : (padStart (natToStrJS n) 4 '0').data =
      List.replicate (4 - (natToStrJS n).length) '0' ++ (natToStrJS n).data := by
    unfold padStart
    rw [String.data_append]
    rfl
  have hne : (padStart (natToStrJS n) 4 '0').data ≠ [] := by
    rw [hdata]
    intro hc
    exact h1 (List.append_eq_nil.mp hc).2
  have hdig : ∀ c ∈ (padStart (natToStrJS n) 4 '0').data, ∃ d, d < 10 ∧ c = Char.ofNat (48 + d) := by
    rw [hdata]
    intro c hc
    rcases List.mem_append.mp hc with hl | hr
    · refine ⟨0, by omega, ?_⟩
      have : c = '0' := List.eq_of_mem_replicate hl
      rw [this]
    · exact h2 c hr
  rw [parseIntJS_digits _ hne hdig, hdata, digitsVal_drop_zeros, h3]

theorem fmtId_data (n : Nat) :
    (fmtId n).data = "CORP-".data ++ (padStart (natToStrJS n) 4 '0').data := by
  unfold fmtId
  rw [String.data_append]

theorem fmtId_pad_no_dash (n : Nat) :
    ∀ c ∈ (padStart (natToStrJS n) 4 '0').data, c ≠ '-' := by
  intro c hc
  obtain ⟨_, h2, _⟩ := natToStrJS_spec n
  have hdata : (padStart (natToStrJS n) 4 '0').data =
      List.replicate (4 - (natToStrJS n).length) '0' ++ (natToStrJS n).data := by
    unfold padStart
    rw [String.data_append]
    rfl
  rw [hdata] at hc
  rcases List.mem_append.mp hc with hl | hr
  · have : c = '0' := List.eq_of_mem_replicate hl
    rw [this]; decide
  · rcases h2 c hr with ⟨d, hd, hcd⟩
    rw [hcd]
    exact (digit_char_facts hd).2.1

theorem jsSplit_corp (s : String) (h : ∀ c ∈ s.data, c ≠ '-') :
    jsSplit '-' ("CORP-" ++ s) = ["CORP", s] := by
  unfold jsSplit
  rw [String.data_append]
  show splitAux '-' ('C' :: 'O' :: 'R' :: 'P' :: '-' :: s.data) [] = ["CORP", s]
  rw [splitAux, if_neg (by decide)]
  rw [splitAux, if_neg (by decide)]
  rw [splitAux, if_neg (by decide)]
  rw [splitAux, if_neg (by decide)]
  rw [splitAux, if_pos rfl]
  rw [splitAux_no_sep '-' s.data [] h]
  rfl

theorem fmtId_suffix_val (n : Nat) :
    parseIntJS ((jsSplit '-' (fmtId n)).getD 1 "undefined") = some (n : Int) := by
  unfold fmtId
  rw [jsSplit_corp _ (fmtId_pad_no_dash n)]
  show parseIntJS (padStart (natToStrJS n) 4 '0') = some (n : Int)
  exact parseIntJS_padded n

theorem fmtId_ne_empty (n : Nat) : fmtId n ≠ "" := by
  apply string_ne_empty_of_data
  rw [fmtId_data]
  simp

theorem fmtId_inj {a b : Nat} (h : fmtId a = fmtId b) : a = b := by
  have ha := fmtId_suffix_val a
  have hb := fmtId_suffix_val b
  rw [h] at ha
  rw [hb] at ha
  simpa using ha.symm

theorem generateId_fmt (suffixes : List Nat) :
    generateId (suffixes.map fmtId) = fmtId (suffixes.getLastD 0 + 1) := by
  cases hl : suffixes.getLast? with
  | none =>
      have : suffixes = [] := List.getLast?_eq_none_iff.mp hl
      subst this
      rfl
  | some m =>
      have hmap : (suffixes.map fmtId).getLast? = some (fmtId m) := by
        rw [List.getLast?_map, hl]
        rfl
      have hlast : suffixes.getLastD 0 = m := by
        rw [List.getLastD_eq_getLast?, hl]
        rfl
      rw [hlast]
      unfold generateId
      simp only [hmap]
      rw [if_neg (fmtId_ne_empty m)]
      rw [fmtId_suffix_val m]
      show "CORP-" ++ padStart (intToStrJS ((m : Int) + 1)) 4 '0' = fmtId (m + 1)
      have : (m : Int) + 1 = Int.ofNat (m + 1) := by
        rw [Int.ofNat_eq_coe]
        push_cast
        ring
      rw [this]
      rfl

theorem mem_le_getLastD : ∀ {l : List Nat}, List.Chain' (· < ·) l →
    ∀ m ∈ l, m ≤ l.getLastD 0
  | [], _, m, hm => absurd hm (by simp)
  | [a], _, m, hm => by
      simp at hm
      simp [hm, List.getLastD]
  | a :: b :: t, hc, m, hm => by
      have hab : a < b := List.chain'_cons.mp hc |>.1
      have hct : List.Chain' (· < ·) (b :: t) := List.chain'_cons.mp hc |>.2
      have hlast : (a :: b :: t).getLastD 0 = (b :: t).getLastD 0 := by
        rw [List.getLastD_eq_getLast?, List.getLastD_eq_getLast?, List.getLast?_cons_cons]
      rw [hlast]
      rcases List.mem_cons.mp hm with h1 | h1
      · have hb := mem_le_getLastD hct b (List.mem_cons_self b t)
        omega
      · exact mem_le_getLastD hct m h1

/-! ## Claim theorems -/

/-- C2, counterexample: `generateId` consults the LAST known record's id,
not the highest suffix.  For the known set `[CORP-0007, CORP-0003]` the
maximum suffix is `7`, yet the next generated id is `CORP-0004`, not
`CORP-0008` as the claim requires. -/
theorem claim_c2_counterexample :
    generateId ["CORP-0007", "CORP-0003"] = "CORP-0004" ∧
    parseIntJS ((jsSplit '-' "CORP-0007").getD 1 "undefined") = some 7 ∧
    parseIntJS ((jsSplit '-' "CORP-0003").getD 1 "undefined") = some 3 ∧
    ("CORP-0004" : String) ≠ "CORP-0008" :=
  ⟨rfl, rfl, rfl, by decide⟩

/-- C2 (amended): for every known-record set whose LAST record has id
`CORP-0007`, the next generated id is `CORP-0008`; for the empty
known-record set, the first generated id is `CORP-0001`. -/
theorem claim_c2_next_id (known : List String)
    (h : known.getLast? = some "CORP-0007") :
    generateId known = "CORP-0008" ∧ generateId [] = "CORP-0001" := by
  constructor
  · unfold generateId
    simp only [h]
    rfl
  · rfl

/-- Witness for C2 at the one-element known set `[CORP-0007]`. -/
theorem claim_c2_next_id_witness :
    generateId ["CORP-0007"] = "CORP-0008" ∧ generateId [] = "CORP-0001" :=
  claim_c2_next_id ["CORP-0007"] rfl

/-- C3, counterexample: for a row with `company_name = Acme` and no
`description` column, the produced record has `description = ""` while its
`name` (and `details`) is `"Acme"`, so `description` does NOT default to
`name` as the claim states. -/
theorem claim_c3_counterexample :
    (convertToRecord "2026-10-11" [] [("company_name", "Acme")]).map
      (Option.map (fun r => (r.description, r.name, r.details))) =
      .ok (some ("", "Acme", "Acme")) ∧ ("" : String) ≠ "Acme" :=
  ⟨rfl, by decide⟩

/-- C3 (amended): for every converted row whose `description` field is
absent or blank, the produced record's `details` field equals the record's
`name`, but its `description` field equals the empty string. -/
theorem claim_c3_description_default (today : String) (known : List String)
    (data : List (String × String)) (rec : Record)
    (h : convertToRecord today known data = .ok (some rec))
    (hd : jsGet data "description" = none ∨
      ∃ s, jsGet data "description" = some s ∧ jsTrim s = "") :
    rec.description = "" ∧ rec.details = rec.name := by
  obtain ⟨_, _, _, hname, _, hdet, hdesc, _⟩ := convertToRecord_ok_some h
  constructor
  · rw [hdesc]
    rcases hd with hd | ⟨s, hs, hts⟩
    · rw [hd]
      rfl
    · rw [hs]
      simp only [optTrimOr]
      rw [if_pos hts]
  · rw [hdet, hname]
    rcases hd with hd | ⟨s, hs, hts⟩
    · rw [hd]
      rfl
    · rw [hs]
      simp only [optTrimOr]
      rw [if_pos hts]

/-- Witness for C3 at a concrete row with no description column. -/
theorem claim_c3_description_default_witness :
    (((convertToRecord "2026-10-11" [] [("company_name", "Acme")]).toOption.getD
        none).getD emptyRecord).description = "" ∧
    (((convertToRecord "2026-10-11" [] [("company_name", "Acme")]).toOption.getD
        none).getD emptyRecord).details =
      (((convertToRecord "2026-10-11" [] [("company_name", "Acme")]).toOption.getD
        none).getD emptyRecord).name :=
  claim_c3_description_default "2026-10-11" [] [("company_name", "Acme")] _ rfl (Or.inl rfl)

/-- C4: for every CSV text whose header row does not contain a
`company_name` token (after lower-casing and trimming), the import fails
with the format error and no result is surfaced. -/
theorem claim_c4_missing_header (today : String) (known : List String)
    (text : String) (h : "company_name" ∉ csvHeaders text) :
    processCSV today known text = .error .formatError := by
  simp [processCSV, h]

/-- Witness for C4 at a CSV without a company_name column. -/
theorem claim_c4_missing_header_witness :
    processCSV "2026-10-11" [] "name,description\nAcme,Widgets" = .error .formatError :=
  claim_c4_missing_header "2026-10-11" [] "name,description\nAcme,Widgets" (by decide)

/-- C5: a post-header line that is empty or whitespace-only, and likewise
a row every one of whose fields is blank or whose `company_name` field is
blank, produces no record and increments the skipped counter by exactly
one. -/
theorem claim_c5_skipped_rows (today : String) (known headers : List String)
    (st : ImportResult) (line : String)
    (h : jsTrim line = "" ∨ isRowEmpty (lineData headers line) = true ∨
      companyBlank (lineData headers line) = true) :
    processLine today known headers st line =
      .ok ⟨st.records, st.processed, st.skipped + 1⟩ := by
  unfold processLine
  by_cases hl : jsTrim line = ""
  · rw [if_pos hl]
  · rw [if_neg hl]
    have hskip : convertToRecord today known (lineData headers line) = .ok none := by
      rcases h with h | h | h
      · exact absurd h hl
      · exact convertToRecord_skip (Or.inl h)
      · exact convertToRecord_skip (Or.inr h)
    rw [hskip]

/-- Witness for C5 at a concrete blank-company row. -/
theorem claim_c5_skipped_rows_witness :
    processLine "2026-10-11" [] ["company_name", "description"] ⟨[], 0, 0⟩ ",Widgets" =
      .ok ⟨[], 0, 0 + 1⟩ :=
  claim_c5_skipped_rows "2026-10-11" [] ["company_name", "description"] ⟨[], 0, 0⟩
    ",Widgets" (Or.inr (Or.inr (by decide)))

/-- C6: for every non-blank line whose `company_name` field is non-blank,
when the conversion raises no parse error, exactly one record is produced,
the processed counter increments by exactly one, and the record's `name`
and `subject` both equal the trimmed `company_name` value. -/
theorem claim_c6_nonblank_company (today : String) (known headers : List String)
    (st : ImportResult) (line : String) (o : Option Record)
    (hline : jsTrim line ≠ "")
    (hco : companyBlank (lineData headers line) = false)
    (hok : convertToRecord today known (lineData headers line) = .ok o) :
    o.isSome = true ∧
    processLine today known headers st line =
      .ok ⟨st.records ++ [o.getD emptyRecord], st.processed + 1, st.skipped⟩ ∧
    (o.getD emptyRecord).name =
      jsTrim ((jsGet (lineData headers line) "company_name").getD "") ∧
    (o.getD emptyRecord).subject = (o.getD emptyRecord).name := by
  cases o with
  | none =>
      exfalso
      unfold convertToRecord at hok
      simp only [isRowEmpty_false_of_company hco, hco, Bool.false_eq_true,
        if_false] at hok
      cases him : imagesValue (jsGet (lineData headers line) "images") with
      | error e => rw [him] at hok; simp at hok
      | ok imgs => rw [him] at hok; simp at hok
  | some rec =>
      obtain ⟨_, _, _, hname, hsubj, _⟩ := convertToRecord_ok_some hok
      refine ⟨rfl, ?_, hname, hsubj⟩
      unfold processLine
      rw [if_neg hline, hok]
      rfl

/-- Witness for C6 at the concrete row `Acme`. -/
theorem claim_c6_nonblank_company_witness :
    ((convertToRecord "2026-10-11" [] (lineData ["company_name"] "Acme")).toOption.getD
      none).isSome = true ∧
    processLine "2026-10-11" [] ["company_name"] ⟨[], 0, 0⟩ "Acme" =
      .ok ⟨[] ++ [((convertToRecord "2026-10-11" [] (lineData ["company_name"]
        "Acme")).toOption.getD none).getD emptyRecord], 0 + 1, 0⟩ ∧
    (((convertToRecord "2026-10-11" [] (lineData ["company_name"] "Acme")).toOption.getD
      none).getD emptyRecord).name =
      jsTrim ((jsGet (lineData ["company_name"] "Acme") "company_name").getD "") ∧
    (((convertToRecord "2026-10-11" [] (lineData ["company_name"] "Acme")).toOption.getD
      none).getD emptyRecord).subject =
      (((convertToRecord "2026-10-11" [] (lineData ["company_name"] "Acme")).toOption.getD
        none).getD emptyRecord).name :=
  claim_c6_nonblank_company "2026-10-11" [] ["company_name"] ⟨[], 0, 0⟩ "Acme" _
    (by decide) (by decide) rfl

/-- C7: comma-separated list columns are split on commas with each element
trimmed and upper-cased; the field-mapping value `"a, b,c"` in `category`
yields `["A","B","C"]`, and an absent or blank `language` column yields
`["ENGLISH"]`. -/
theorem claim_c7_list_columns (today : String) (known : List String)
    (data : List (String × String)) (rec : Record)
    (h : convertToRecord today known data = .ok (some rec)) :
    (jsGet data "category" = some "a, b,c" → rec.category = ["A", "B", "C"]) ∧
    (jsGet data "language" = none → rec.language = ["ENGLISH"]) ∧
    (∀ s, jsGet data "language" = some s → jsTrim s = "" →
      rec.language = ["ENGLISH"]) ∧
    (∀ s, jsGet data "category" = some s → jsTrim s ≠ "" →
      rec.category = (jsSplit ',' s).map (fun x => jsToUpper (jsTrim x))) := by
  obtain ⟨_, _, _, _, _, _, _, hcat, hlang, _, _⟩ := convertToRecord_ok_some h
  refine ⟨?_, ?_, ?_, ?_⟩
  · intro hc
    rw [hcat, hc]
    rfl
  · intro hl
    rw [hlang, hl]
    rfl
  · intro s hs hts
    rw [hlang, hs]
    simp only [listColumn]
    rw [if_pos hts]
  · intro s hs hts
    rw [hcat, hs]
    simp only [listColumn]
    rw [if_neg hts]

/-- Witness for C7 at a concrete row carrying `category = "a, b,c"` and no
language column. -/
theorem claim_c7_list_columns_witness :
    (((convertToRecord "2026-10-11" [] [("company_name", "Acme"),
        ("category", "a, b,c")]).toOption.getD none).getD emptyRecord).category =
      ["A", "B", "C"] ∧
    (((convertToRecord "2026-10-11" [] [("company_name", "Acme"),
        ("category", "a, b,c")]).toOption.getD none).getD emptyRecord).language =
      ["ENGLISH"] := by
  have h := claim_c7_list_columns "2026-10-11" []
    [("company_name", "Acme"), ("category", "a, b,c")] _ rfl
  exact ⟨h.1 rfl, h.2.1 rfl⟩

/-- C9: the claim fails as a code bug.  Headers are lower-cased before the
row object is built, but `convertToRecord` reads the camel-case keys
`zipCode` and `taxId`, which therefore never match: the produced fields
are always empty no matter what the cells contain. -/
theorem claim_c9_case_lookup_bug :
    jsToLower "zipCode" = "zipcode" ∧ jsToLower "taxId" = "taxid" ∧
    (processCSV "2026-10-11" [] "company_name,zipCode\nAcme,12345").map
      (fun r => r.records.map Record.zipCode) = .ok [""] ∧
    (processCSV "2026-10-11" [] "company_name,taxId\nAcme,TX99").map
      (fun r => r.records.map Record.taxId) = .ok [""] :=
  ⟨rfl, rfl, rfl, rfl⟩

/-- C1, counterexample: the record store is never updated during a run, so
every row of one import run draws the SAME id.  With known set
`[CORP-0001]` and two valid rows, both produced records get `CORP-0002`,
violating pairwise uniqueness and strict increase. -/
theorem claim_c1_counterexample :
    (processCSV "2026-10-11" ["CORP-0001"] "company_name\nAcme\nBeta").map
      (fun r => r.records.map Record.id) = .ok ["CORP-0002", "CORP-0002"] ∧
    ¬ List.Pairwise (· ≠ ·) (["CORP-0002", "CORP-0002"] ++ ["CORP-0001"]) :=
  ⟨rfl, by decide⟩

/-- C1 (amended): over a known-record set with well-formed, strictly
increasing id suffixes, every id generated during a run equals the fixed
id `CORP-` (last known suffix + 1, zero-padded) — so it is distinct from
every known id, but all ids generated in the same run coincide instead of
strictly increasing. -/
theorem claim_c1_run_ids (today text : String) (suffixes : List Nat)
    (r : ImportResult)
    (hmono : List.Chain' (· < ·) suffixes)
    (hrun : processCSV today (suffixes.map fmtId) text = .ok r) :
    r.records.map Record.id =
      List.replicate r.records.length (fmtId (suffixes.getLastD 0 + 1)) ∧
    fmtId (suffixes.getLastD 0 + 1) ∉ suffixes.map fmtId := by
  constructor
  · have hids : ∀ rec ∈ r.records, rec.id = fmtId (suffixes.getLastD 0 + 1) := by
      intro rec hrec
      simp only [processCSV] at hrun
      by_cases hkey : "company_name" ∈ csvHeaders text
      · rw [if_pos hkey] at hrun
        rcases runLines_ids hrun rec hrec with h1 | h1
        · simp at h1
        · rw [h1, generateId_fmt]
      · rw [if_neg hkey] at hrun
        simp at hrun
    have hlen : (r.records.map Record.id).length = r.records.length := by simp
    rw [← hlen]
    apply List.eq_replicate_of_mem
    intro b hb
    rcases List.mem_map.mp hb with ⟨rec, hrec, hbe⟩
    rw [← hbe]
    exact hids rec hrec
  · intro hmem
    rcases List.mem_map.mp hmem with ⟨m, hm, hfm⟩
    have heq := fmtId_inj hfm
    have hle := mem_le_getLastD hmono m hm
    omega

/-- Witness for C1 at the known set `[CORP-0001]` and a two-row CSV. -/
theorem claim_c1_run_ids_witness :
    ((processCSV "2026-10-11" ([1].map fmtId)
        "company_name\nAcme\nBeta").toOption.getD ⟨[], 0, 0⟩).records.map Record.id =
      List.replicate ((processCSV "2026-10-11" ([1].map fmtId)
        "company_name\nAcme\nBeta").toOption.getD ⟨[], 0, 0⟩).records.length
        (fmtId ([1].getLastD 0 + 1)) ∧
    fmtId ([1].getLastD 0 + 1) ∉ [1].map fmtId :=
  claim_c1_run_ids "2026-10-11" "company_name\nAcme\nBeta" [1] _
    (List.chain'_singleton 1) rfl

/-- C8, counterexample: a row whose `images` cell is `\x7bnot json` (not
valid JSON) but whose `company_name` is blank is skipped before the cell
is parsed, so the run SUCCEEDS, contradicting the claim for that input. -/
theorem claim_c8_counterexample :
    JSONparse "\x7bnot json" = none ∧
    processCSV "2026-10-11" [] "company_name,images\n,\x7bnot json" = .ok ⟨[], 0, 1⟩ :=
  ⟨rfl, rfl⟩

/-- C8 (amended): for every CSV input containing at least one row that
actually reaches conversion (its `company_name` field is non-blank) whose
`images` cell trims to a non-empty string that is not valid JSON, the
whole run fails with the parse error and no record list is surfaced. -/
theorem claim_c8_parse_abort (today : String) (known : List String)
    (text : String)
    (h : ∃ line ∈ (jsSplit '\n' text).tail,
      companyBlank (lineData (csvHeaders text) line) = false ∧
      ∃ s, jsGet (lineData (csvHeaders text) line) "images" = some s ∧
        jsTrim s ≠ "" ∧ JSONparse (jsTrim s) = none) :
    processCSV today known text = .error .parseError := by
  obtain ⟨line, hmem, hco, s, himg, hts, hjson⟩ := h
  have hkey : "company_name" ∈ csvHeaders text := by
    unfold companyBlank at hco
    cases hg : jsGet (lineData (csvHeaders text) line) "company_name" with
    | none => rw [hg] at hco; simp at hco
    | some v =>
        have hmemkv := jsGet_some_mem hg
        have := buildData_keys _ hmemkv
        simpa using this
  have hs_ne : s ≠ "" := by
    intro he
    rw [he] at hts
    exact hts rfl
  have himgval : imagesValue (jsGet (lineData (csvHeaders text) line) "images") =
      .error .parseError := by
    rw [himg]
    simp only [imagesValue]
    rw [if_neg hs_ne, if_neg hts, hjson]
  have hbad : ∀ st2, processLine today known (csvHeaders text) st2 line =
      .error .parseError := by
    intro st2
    have hline : jsTrim line ≠ "" := by
      intro hbl
      have h2 : companyBlank (lineData (csvHeaders text) line) = true :=
        companyBlank_of_blank_line hbl
      rw [hco] at h2
      simp at h2
    unfold processLine
    rw [if_neg hline, convertToRecord_error_of_images hco himgval]
  simp only [processCSV]
  rw [if_pos hkey]
  exact runLines_error_of_bad hbad hmem _

/-- Witness for C8 at a CSV whose single row has a non-blank company name
and a malformed images cell. -/
theorem claim_c8_parse_abort_witness :
    processCSV "2026-10-11" [] "company_name,images\nAcme,\x7bnot json" =
      .error .parseError :=
  claim_c8_parse_abort "2026-10-11" [] "company_name,images\nAcme,\x7bnot json"
    ⟨"Acme,\x7bnot json", by decide, by decide, "\x7bnot json", rfl, by decide, rfl⟩

/-- C10: in a run that completes without error, every post-header line
bumps exactly one of the two counters, so their sum equals the number of
post-header lines; and appending one line feed to the file text adds
exactly one skipped row (the empty final line) while leaving the records
and the processed count unchanged. -/
theorem claim_c10_row_partition (today : String) (known : List String)
    (text : String) (r : ImportResult)
    (h : processCSV today known text = .ok r) :
    r.processed + r.skipped = (jsSplit '\n' text).length - 1 ∧
    processCSV today known (text ++ "\n") =
      .ok ⟨r.records, r.processed, r.skipped + 1⟩ := by
  simp only [processCSV] at h
  by_cases hkey : "company_name" ∈ csvHeaders text
  · rw [if_pos hkey] at h
    have hne := jsSplit_ne_nil '\n' text
    have hsp := jsSplit_append_newline text
    constructor
    · have := runLines_counts h
      simpa [List.length_tail] using this
    · have hhead : ((jsSplit '\n' text) ++ [""]).headD "" =
          (jsSplit '\n' text).headD "" := by
        cases hX : jsSplit '\n' text with
        | nil => exact absurd hX hne
        | cons a as => rfl
      have hheads : csvHeaders (text ++ "\n") = csvHeaders text := by
        unfold csvHeaders
        rw [hsp, hhead]
      have htail : ((jsSplit '\n' text) ++ [""]).tail =
          (jsSplit '\n' text).tail ++ [""] := by
        cases hX : jsSplit '\n' text with
        | nil => exact absurd hX hne
        | cons a as => rfl
      simp only [processCSV]
      rw [hheads, hsp, htail, if_pos hkey]
      rw [runLines_append, h]
      rfl
  · rw [if_neg hkey] at h
    simp at h

/-- Witness for C10 at a concrete three-line CSV. -/
theorem claim_c10_row_partition_witness :
    ((processCSV "2026-10-11" [] "company_name\nAcme\n\nBeta").toOption.getD
      ⟨[], 0, 0⟩).processed +
    ((processCSV "2026-10-11" [] "company_name\nAcme\n\nBeta").toOption.getD
      ⟨[], 0, 0⟩).skipped = (jsSplit '\n' "company_name\nAcme\n\nBeta").length - 1 ∧
    processCSV "2026-10-11" [] ("company_name\nAcme\n\nBeta" ++ "\n") =
      .ok ⟨((processCSV "2026-10-11" [] "company_name\nAcme\n\nBeta").toOption.getD
          ⟨[], 0, 0⟩).records,
        ((processCSV "2026-10-11" [] "company_name\nAcme\n\nBeta").toOption.getD
          ⟨[], 0, 0⟩).processed,
        ((processCSV "2026-10-11" [] "company_name\nAcme\n\nBeta").toOption.getD
          ⟨[], 0, 0⟩).skipped + 1⟩ :=
  claim_c10_row_partition "2026-10-11" [] "company_name\nAcme\n\nBeta" _ rfl

end CSVImport
